import Mathlib

/-!
# JSON-RPC 2.0 dispatcher of `scripts/ws-jsonrpc-server/main.go`

A shallow embedding of `handleSingle` and of the read loop of `handleWS`,
together with the part of Go's `encoding/json` that these two functions call
(`json.Unmarshal` into `rpcRequest` and into `[]json.RawMessage`, and the
encoding of `rpcResponse` that `conn.WriteJSON` performs).

Conventions.
* An inbound byte message is represented by its parse: `none` for bytes that
  the scanner of `encoding/json` rejects (text that is not JSON, or JSON nested
  deeper than the scanner allows), `some v` for the JSON text of the tree `v`.
* A number literal is represented by the `float64` it converts to, and a
  `float64` is stood for by an `Int`: the program only copies numbers and never
  computes with them. A literal outside the `float64` range (`1e400`) is the
  separate constructor `JSON.numRange`; rounding of literals is not modelled.
* A Go `interface{}` holding decoded JSON is a `GoValue`; the Go `nil`
  interface is `GoValue.nil`.
-/

namespace JsonRpcServer

/-! ## JSON texts and Go values -/

/-- Parse tree of a JSON text. -/
inductive JSON where
  | null
  | bool (b : Bool)
  | num (n : Int)
  | numRange
  | str (s : String)
  | arr (xs : List JSON)
  | obj (kvs : List (String × JSON))

/-- Contents of a Go `interface{}` that `encoding/json` decoded into:
`nil`, `bool`, `float64`, `string`, `[]interface{}`, `map[string]interface{}`. -/
inductive GoValue where
  | nil
  | bool (b : Bool)
  | float64 (n : Int)
  | string (s : String)
  | slice (xs : List GoValue)
  | map (kvs : List (String × GoValue))

/-- Type `json.RawMessage` / the `[]byte` that `conn.ReadMessage` returns. -/
abbrev RawMessage := Option JSON

/-- Go test `v == nil` on an `interface{}`. -/
def GoValue.isNil : GoValue → Bool
  | .nil => true
  | _ => false

/-- Whether a Go map already has the key. -/
def hasKey (k : String) : List (String × GoValue) → Bool
  | [] => false
  | (k', _) :: rest => if k' = k then true else hasKey k rest

mutual
/-- Decoding of a JSON value into an empty `interface{}`
(`decodeState.valueInterface`); `none` when an error was saved, which happens
for a number literal that `strconv.ParseFloat` rejects. -/
def decodeInterface : JSON → Option GoValue
  | .null => some .nil
  | .bool b => some (.bool b)
  | .num n => some (.float64 n)
  | .numRange => none
  | .str s => some (.string s)
  | .arr xs =>
    match decodeArray xs with
    | some gs => some (.slice gs)
    | none => none
  | .obj kvs =>
    match decodeObject kvs with
    | some m => some (.map m)
    | none => none
/-- Elements of an array, in order (`arrayInterface`). -/
def decodeArray : List JSON → Option (List GoValue)
  | [] => some []
  | x :: xs =>
    match decodeInterface x, decodeArray xs with
    | some g, some gs => some (g :: gs)
    | _, _ => none
/-- Members of an object stored into a map (`objectInterface`): of two members
with one key the later one stays. The order of the list has no meaning. -/
def decodeObject : List (String × JSON) → Option (List (String × GoValue))
  | [] => some []
  | (k, v) :: kvs =>
    match decodeInterface v, decodeObject kvs with
    | some g, some m => some (if hasKey k m then m else (k, g) :: m)
    | _, _ => none
end

/-! ## The types of main.go -/

/-- Go struct `rpcRequest` (main.go 13-18). -/
structure rpcRequest where
  JSONRPC : String
  Method : String
  Params : GoValue
  ID : GoValue

/-- Go struct `rpcError` (main.go 20-24). -/
structure rpcError where
  Code : Int
  Message : String
  Data : GoValue

/-- Go struct `rpcResponse` (main.go 26-31); `Error` is a pointer, `none` is
the nil pointer. -/
structure rpcResponse where
  JSONRPC : String
  Result : GoValue
  Error : Option rpcError
  ID : GoValue

/-- Zero value of `rpcRequest` (`var req rpcRequest`). -/
def rpcRequest.zero : rpcRequest :=
  { JSONRPC := "", Method := "", Params := .nil, ID := .nil }

/-- Zero value `rpcResponse{}`. -/
def rpcResponse.zero : rpcResponse :=
  { JSONRPC := "", Result := .nil, Error := none, ID := .nil }

/-! ## json.Unmarshal into rpcRequest -/

/-- Case folding of one rune of an object key (`foldRune`): the least rune of
its simple-fold orbit. Besides the ASCII letters only U+017F and U+212A fold to
an ASCII letter; other runes are left alone, which does not change whether a
key matches one of the four ASCII field names. -/
def foldRune (c : Char) : Char :=
  if c = '\u017f' then 'S' else if c = '\u212a' then 'K' else c.toUpper

/-- Folded form of an object key (`foldName`). -/
def foldName (key : String) : String :=
  String.mk (key.data.map foldRune)

/-- Decoder state while the members of an object are stored into `req`:
the struct so far and whether an error has been saved. -/
structure DecodeState where
  req : rpcRequest
  failed : Bool

/-- Store a value into a field of Go type `string`: a JSON string is stored,
`null` leaves the field as it is, anything else saves an
`UnmarshalTypeError`. -/
def storeString (v : JSON) (old : String) : String × Bool :=
  match v with
  | .str s => (s, false)
  | .null => (old, false)
  | _ => (old, true)

/-- Store a value into a field of Go type `interface{}`. -/
def storeInterface (v : JSON) (old : GoValue) : GoValue × Bool :=
  match decodeInterface v with
  | some g => (g, false)
  | none => (old, true)

/-- One member of the object (`decodeState.object`): the key selects a field
by its folded name, a key that selects none is skipped. -/
def storeMember (st : DecodeState) (kv : String × JSON) : DecodeState :=
  let name := foldName kv.1
  if name = "JSONRPC" then
    let r := storeString kv.2 st.req.JSONRPC
    { req := { st.req with JSONRPC := r.1 }, failed := st.failed || r.2 }
  else if name = "METHOD" then
    let r := storeString kv.2 st.req.Method
    { req := { st.req with Method := r.1 }, failed := st.failed || r.2 }
  else if name = "PARAMS" then
    let r := storeInterface kv.2 st.req.Params
    { req := { st.req with Params := r.1 }, failed := st.failed || r.2 }
  else if name = "ID" then
    let r := storeInterface kv.2 st.req.ID
    { req := { st.req with ID := r.1 }, failed := st.failed || r.2 }
  else st

/-- Call `json.Unmarshal(raw, &req)` on a zero `req` (main.go 118-119):
`none` is `err != nil`, `some req` is the struct after a call without error.
Bytes that are not JSON are a syntax error; `null` leaves the struct alone;
an object is stored member by member; any other value is an
`UnmarshalTypeError`. -/
def unmarshalRequest : RawMessage → Option rpcRequest
  | none => none
  | some .null => some rpcRequest.zero
  | some (.obj kvs) =>
    let st := kvs.foldl storeMember { req := rpcRequest.zero, failed := false }
    if st.failed then none else some st.req
  | some _ => none

/-! ## handleSingle -/

/-- Response of main.go 121-125. -/
def parseErrorResponse : rpcResponse :=
  { JSONRPC := "2.0"
    Result := .nil
    Error := some { Code := -32700, Message := "Parse error", Data := .nil }
    ID := .nil }

/-- Function `handleSingle` (main.go 117-163). -/
def handleSingle (raw : RawMessage) : rpcResponse × Bool :=
  match unmarshalRequest raw with
  | none => (parseErrorResponse, true)
  | some req =>
    if req.ID.isNil then
      (rpcResponse.zero, false)
    else if req.JSONRPC ≠ "2.0" then
      ({ JSONRPC := "2.0"
         Result := .nil
         Error := some { Code := -32600
                         Message := "Invalid Request: jsonrpc must be '2.0'"
                         Data := .nil }
         ID := req.ID }, true)
    else if req.Method = "ping" then
      ({ JSONRPC := "2.0"
         Result := .map [("pong", .bool true)]
         Error := none
         ID := req.ID }, true)
    else if req.Method = "echo" then
      ({ JSONRPC := "2.0"
         Result := req.Params
         Error := none
         ID := req.ID }, true)
    else
      ({ JSONRPC := "2.0"
         Result := .nil
         Error := some { Code := -32601, Message := "Method not found", Data := .nil }
         ID := req.ID }, true)

/-! ## Encoding of responses (conn.WriteJSON) -/

/-- Insert a member into a list of members sorted by key. -/
def insertByKey (kv : String × JSON) : List (String × JSON) → List (String × JSON)
  | [] => [kv]
  | kv' :: rest => if kv.1 < kv'.1 then kv :: kv' :: rest else kv' :: insertByKey kv rest

/-- Members sorted by key, the order in which `encoding/json` writes a map. -/
def sortByKey : List (String × JSON) → List (String × JSON)
  | [] => []
  | kv :: rest => insertByKey kv (sortByKey rest)

mutual
/-- Encoding of the contents of an `interface{}`: a nil interface is written
as `null`, a map with its keys sorted. -/
def marshalValue : GoValue → JSON
  | .nil => .null
  | .bool b => .bool b
  | .float64 n => .num n
  | .string s => .str s
  | .slice xs => .arr (marshalSlice xs)
  | .map kvs => .obj (sortByKey (marshalMap kvs))
/-- Elements of a slice, in order. -/
def marshalSlice : List GoValue → List JSON
  | [] => []
  | x :: xs => marshalValue x :: marshalSlice xs
/-- Entries of a map, each value encoded. -/
def marshalMap : List (String × GoValue) → List (String × JSON)
  | [] => []
  | (k, v) :: kvs => (k, marshalValue v) :: marshalMap kvs
end

/-- Encoding of `rpcError` with its struct tags: `data` has `omitempty`. -/
def marshalError (e : rpcError) : JSON :=
  .obj ([("code", .num e.Code), ("message", .str e.Message)]
    ++ (if e.Data.isNil then [] else [("data", marshalValue e.Data)]))

/-- Encoding of `rpcResponse` with its struct tags: `result` and `error` have
`omitempty` (left out for a nil interface and a nil pointer), `jsonrpc` and
`id` have not. -/
def marshalResponse (r : rpcResponse) : JSON :=
  .obj ([("jsonrpc", .str r.JSONRPC)]
    ++ (if r.Result.isNil then [] else [("result", marshalValue r.Result)])
    ++ (match r.Error with
        | none => []
        | some e => [("error", marshalError e)])
    ++ [("id", marshalValue r.ID)])

/-- Value of the member with the given name in an encoded object, if any. -/
def JSON.member (name : String) : JSON → Option JSON
  | .obj kvs => (kvs.find? (fun kv => kv.1 = name)).map (fun kv => kv.2)
  | _ => none

/-! ## The read loop of handleWS -/

/-- Call `json.Unmarshal(message, &rawBatch)` on a nil `[]json.RawMessage`
(main.go 87-88): `none` is `err != nil`. An array gives its elements as raw
texts, `null` leaves the slice nil, any other value is an
`UnmarshalTypeError`. -/
def unmarshalBatch : RawMessage → Option (List RawMessage)
  | none => none
  | some .null => some []
  | some (.arr xs) => some (xs.map some)
  | some _ => none

/-- Loop of main.go 90-96: `res` after the members have been handled. -/
def collectBatch (rawBatch : List RawMessage) : List rpcResponse :=
  rawBatch.foldl
    (fun res item =>
      let r := handleSingle item
      if r.2 then res ++ [r.1] else res)
    []

/-- Argument of a `conn.WriteJSON` call of the read loop. -/
inductive Outbound where
  | single (resp : rpcResponse)
  | batch (res : List rpcResponse)

/-- Text that `conn.WriteJSON` sends for its argument. -/
def Outbound.marshal : Outbound → JSON
  | .single resp => marshalResponse resp
  | .batch res => .arr (res.map marshalResponse)

/-- One iteration of the read loop after a successful read (main.go 86-113):
the `conn.WriteJSON` call it makes, if it makes one. -/
def dispatch (message : RawMessage) : Option Outbound :=
  match unmarshalBatch message with
  | some rawBatch =>
    let res := collectBatch rawBatch
    if res.length > 0 then some (.batch res) else none
  | none =>
    let r := handleSingle message
    if r.2 then some (.single r.1) else none

/-- What the connection presents to one iteration of the read loop: the
message that `conn.ReadMessage` returns and whether a `conn.WriteJSON` made in
this iteration succeeds. -/
structure Inbound where
  message : RawMessage
  writeOk : Bool

/-- Observable actions of the read loop. -/
inductive Event where
  | writeJSON (o : Outbound) (ok : Bool)
  | closeDone
  | ret

/-- Read loop of `handleWS` (main.go 78-114) run against the messages the
connection delivers; after the last of them `conn.ReadMessage` fails. The
result is the trace of writes, `close(done)` and the return. -/
def handleWS : List Inbound → List Event
  | [] => [.closeDone, .ret]
  | i :: rest =>
    match unmarshalBatch i.message with
    | some rawBatch =>
      let res := collectBatch rawBatch
      if res.length > 0 then
        if i.writeOk then .writeJSON (.batch res) true :: handleWS rest
        else [.writeJSON (.batch res) false, .ret]
      else handleWS rest
    | none =>
      let r := handleSingle i.message
      if r.2 then
        if i.writeOk then .writeJSON (.single r.1) true :: handleWS rest
        else [.writeJSON (.single r.1) false, .closeDone, .ret]
      else handleWS rest

/-! ## Messages used as instances -/

/-- Request of scenario 1: the text `{"jsonrpc":"2.0","method":"ping","id":1}`. -/
def pingRequest : JSON :=
  .obj [("jsonrpc", .str "2.0"), ("method", .str "ping"), ("id", .num 1)]

/-- Request of scenario 2: the text
`{"jsonrpc":"2.0","method":"echo","params":{"a":1},"id":"x"}`. -/
def echoRequest : JSON :=
  .obj [("jsonrpc", .str "2.0"), ("method", .str "echo"),
        ("params", .obj [("a", .num 1)]), ("id", .str "x")]

/-- Request of scenario 3: the text `{"jsonrpc":"1.0","method":"ping","id":2}`. -/
def oldVersionRequest : JSON :=
  .obj [("jsonrpc", .str "1.0"), ("method", .str "ping"), ("id", .num 2)]

/-- Request of scenario 4: the text `{"method":"ping"}`. -/
def pingNotification : JSON :=
  .obj [("method", .str "ping")]

/-- A request for a method the server does not have: the text
`{"jsonrpc":"2.0","method":"sum","id":3}`. -/
def unknownMethodRequest : JSON :=
  .obj [("jsonrpc", .str "2.0"), ("method", .str "sum"), ("id", .num 3)]

/-- An object with a `null` version: the text
`{"jsonrpc":null,"method":"ping","id":1}`. -/
def nullVersionRequest : JSON :=
  .obj [("jsonrpc", .null), ("method", .str "ping"), ("id", .num 1)]

/-- A ping request with an explicit `null` id: the text
`{"jsonrpc":"2.0","method":"ping","id":null}`. -/
def nullIdRequest : JSON :=
  .obj [("jsonrpc", .str "2.0"), ("method", .str "ping"), ("id", .null)]

/-- An echo request without params: the text
`{"jsonrpc":"2.0","method":"echo","id":1}`. -/
def echoNoParamsRequest : JSON :=
  .obj [("jsonrpc", .str "2.0"), ("method", .str "echo"), ("id", .num 1)]

/-- An echo request with `null` params: the text
`{"jsonrpc":"2.0","method":"echo","params":null,"id":1}`. -/
def echoNullRequest : JSON :=
  .obj [("jsonrpc", .str "2.0"), ("method", .str "echo"), ("params", .null), ("id", .num 1)]

/-- An echo request whose params is a number literal that does not fit a
`float64`: the text `{"jsonrpc":"2.0","method":"echo","params":1e400,"id":1}`. -/
def echoRangeRequest : JSON :=
  .obj [("jsonrpc", .str "2.0"), ("method", .str "echo"), ("params", .numRange),
        ("id", .num 1)]

/-! ## Values that are not of the request shape -/

/-- A member that cannot be stored into the string fields `jsonrpc` and
`method`: its key selects one of the two and its value is neither a string nor
`null`. -/
def badMember (kv : String × JSON) : Bool :=
  (foldName kv.1 = "JSONRPC" || foldName kv.1 = "METHOD") &&
    match kv.2 with
    | .str _ => false
    | .null => false
    | _ => true

/-- JSON values that are not of the request shape: a number, a string, a
boolean, an array, or an object with a `jsonrpc` or `method` member that is
neither a string nor `null`. -/
def shapeMismatch : JSON → Bool
  | .null => false
  | .bool _ => true
  | .num _ => true
  | .numRange => true
  | .str _ => true
  | .arr _ => true
  | .obj kvs => kvs.any badMember

/-! ## Kinds of batch members, and kinds of events -/

/-- An echo notification, the second member of scenario 6: the text
`{"method":"echo"}`. -/
def echoNotification : JSON :=
  .obj [("method", .str "echo")]

/-- The member does not decode into `rpcRequest` (`err != nil` in main.go 119). -/
def failsToDecode (raw : RawMessage) : Bool :=
  match unmarshalRequest raw with
  | none => true
  | some _ => false

/-- The member decodes into a request whose id is present, that is, not nil. -/
def decodesWithId (raw : RawMessage) : Bool :=
  match unmarshalRequest raw with
  | none => false
  | some req => !req.ID.isNil

/-- The member decodes into a request whose id is nil. -/
def decodesWithoutId (raw : RawMessage) : Bool :=
  match unmarshalRequest raw with
  | none => false
  | some req => req.ID.isNil

/-- The event is the `close(done)` of the read loop. -/
def Event.isCloseDone : Event → Bool
  | .closeDone => true
  | _ => false

/-! ## Auxiliary facts -/

theorem GoValue.isNil_iff (g : GoValue) : g.isNil = true ↔ g = GoValue.nil := by
  cases g <;> simp [GoValue.isNil]

theorem GoValue.isNil_false_iff (g : GoValue) : g.isNil = false ↔ g ≠ GoValue.nil := by
  cases g <;> simp [GoValue.isNil]

/-- The body of `handleSingle` after a decode without error. -/
theorem handleSingle_decoded (raw : RawMessage) (req : rpcRequest)
    (hdec : unmarshalRequest raw = some req) :
    handleSingle raw =
      if req.ID.isNil then (rpcResponse.zero, false)
      else if req.JSONRPC ≠ "2.0" then
        ({ JSONRPC := "2.0", Result := .nil,
           Error := some { Code := -32600,
                           Message := "Invalid Request: jsonrpc must be '2.0'",
                           Data := .nil },
           ID := req.ID }, true)
      else if req.Method = "ping" then
        ({ JSONRPC := "2.0", Result := .map [("pong", .bool true)], Error := none,
           ID := req.ID }, true)
      else if req.Method = "echo" then
        ({ JSONRPC := "2.0", Result := req.Params, Error := none, ID := req.ID }, true)
      else
        ({ JSONRPC := "2.0", Result := .nil,
           Error := some { Code := -32601, Message := "Method not found", Data := .nil },
           ID := req.ID }, true) := by
  simp only [handleSingle, hdec]

/-- The body of `handleSingle` after a decode error. -/
theorem handleSingle_undecoded (raw : RawMessage) (hdec : unmarshalRequest raw = none) :
    handleSingle raw = (parseErrorResponse, true) := by
  simp only [handleSingle, hdec]

/-- Only `null` and objects decode into `rpcRequest` without error. -/
theorem unmarshalRequest_some_cases (raw : RawMessage) (req : rpcRequest)
    (hdec : unmarshalRequest raw = some req) :
    raw = some JSON.null ∨ ∃ kvs, raw = some (JSON.obj kvs) := by
  match raw, hdec with
  | some .null, _ => exact Or.inl rfl
  | some (.obj kvs), _ => exact Or.inr ⟨kvs, rfl⟩

/-! ## Requests that are answered with a result -/

/-- C1: a raw member that decodes into a request with an id, version "2.0" and
method "ping" is answered (ok = true) with version "2.0", the result
`{"pong": true}`, no error and the id of the request, whatever its params. -/
theorem handleSingle_ping (raw : RawMessage) (req : rpcRequest)
    (hdec : unmarshalRequest raw = some req) (hid : req.ID ≠ GoValue.nil)
    (hver : req.JSONRPC = "2.0") (hmethod : req.Method = "ping") :
    handleSingle raw =
      ({ JSONRPC := "2.0", Result := GoValue.map [("pong", GoValue.bool true)],
         Error := none, ID := req.ID }, true) := by
  have hnil : req.ID.isNil = false := (GoValue.isNil_false_iff _).2 hid
  rw [handleSingle_decoded raw req hdec]
  simp [hnil, hver, hmethod]

/-- Scenario 1 as an instance of C1: the ping request with id 1 is answered, and
the answer is sent as `{"jsonrpc":"2.0","result":{"pong":true},"id":1}`. -/
theorem handleSingle_ping_witness :
    handleSingle (some pingRequest) =
        ({ JSONRPC := "2.0", Result := GoValue.map [("pong", GoValue.bool true)],
           Error := none, ID := GoValue.float64 1 }, true)
      ∧ marshalResponse (handleSingle (some pingRequest)).1 =
        JSON.obj [("jsonrpc", JSON.str "2.0"),
                  ("result", JSON.obj [("pong", JSON.bool true)]),
                  ("id", JSON.num 1)] :=
  ⟨handleSingle_ping (some pingRequest)
      { JSONRPC := "2.0", Method := "ping", Params := GoValue.nil, ID := GoValue.float64 1 }
      rfl (by simp) rfl rfl,
   rfl⟩

/-! ## Notifications -/

/-- A message that decodes into `rpcRequest` is not a batch unless it is
`null`, and `null` is a batch without members. -/
theorem dispatch_decoded (raw : RawMessage) (req : rpcRequest)
    (hdec : unmarshalRequest raw = some req) (hid : req.ID = GoValue.nil) :
    dispatch raw = none := by
  have hs : handleSingle raw = (rpcResponse.zero, false) := by
    rw [handleSingle_decoded raw req hdec]
    simp [hid, GoValue.isNil]
  rcases unmarshalRequest_some_cases raw req hdec with h | ⟨kvs, h⟩
  · subst h
    simp [dispatch, unmarshalBatch, collectBatch]
  · subst h
    simp [dispatch, unmarshalBatch, hs]

/-- C3: a raw member that decodes into a request without id gets no answer:
`handleSingle` returns ok = false with the zero response, and as a message of
its own it causes no write. Method, params and version are not looked at. -/
theorem handleSingle_notification (raw : RawMessage) (req : rpcRequest)
    (hdec : unmarshalRequest raw = some req) (hid : req.ID = GoValue.nil) :
    handleSingle raw = (rpcResponse.zero, false) ∧ dispatch raw = none := by
  refine ⟨?_, dispatch_decoded raw req hdec hid⟩
  rw [handleSingle_decoded raw req hdec]
  simp [hid, GoValue.isNil]

/-- Scenario 4 as an instance of C3: `{"method":"ping"}`, which has neither id
nor version, is not answered. -/
theorem handleSingle_notification_witness :
    handleSingle (some pingNotification) = (rpcResponse.zero, false)
      ∧ dispatch (some pingNotification) = none :=
  handleSingle_notification (some pingNotification)
    { JSONRPC := "", Method := "ping", Params := GoValue.nil, ID := GoValue.nil } rfl rfl

/-! ## Requests with an id -/

/-- C4: a raw member that decodes into a request whose id is a string or a
number is answered (ok = true) and the answer carries the id of the request,
on every branch: wrong version, ping, echo and unknown method. -/
theorem handleSingle_id_matches (raw : RawMessage) (req : rpcRequest)
    (hdec : unmarshalRequest raw = some req)
    (hid : (∃ s, req.ID = GoValue.string s) ∨ (∃ n, req.ID = GoValue.float64 n)) :
    (handleSingle raw).2 = true ∧ (handleSingle raw).1.ID = req.ID := by
  have hnil : req.ID.isNil = false := by
    rcases hid with ⟨s, h⟩ | ⟨n, h⟩ <;> simp [h, GoValue.isNil]
  rw [handleSingle_decoded raw req hdec]
  simp only [hnil, Bool.false_eq_true, if_false]
  split_ifs <;> exact ⟨rfl, rfl⟩

/-- An instance of C4 with a string id on the echo branch. -/
theorem handleSingle_id_matches_witness :
    (handleSingle (some echoRequest)).2 = true
      ∧ (handleSingle (some echoRequest)).1.ID = GoValue.string "x" :=
  handleSingle_id_matches (some echoRequest)
    { JSONRPC := "2.0", Method := "echo",
      Params := GoValue.map [("a", GoValue.float64 1)], ID := GoValue.string "x" }
    rfl (Or.inl ⟨"x", rfl⟩)

/-! ## Error responses -/

/-- C5: a raw member that decodes into a request with an id and a version other
than "2.0" (the empty string of a missing field included) is answered with
error -32600 "Invalid Request: jsonrpc must be '2.0'", no result and the id of
the request, whatever the method. -/
theorem handleSingle_invalid_version (raw : RawMessage) (req : rpcRequest)
    (hdec : unmarshalRequest raw = some req) (hid : req.ID ≠ GoValue.nil)
    (hver : req.JSONRPC ≠ "2.0") :
    handleSingle raw =
      ({ JSONRPC := "2.0", Result := GoValue.nil,
         Error := some { Code := -32600,
                         Message := "Invalid Request: jsonrpc must be '2.0'",
                         Data := GoValue.nil },
         ID := req.ID }, true) := by
  have hnil : req.ID.isNil = false := (GoValue.isNil_false_iff _).2 hid
  rw [handleSingle_decoded raw req hdec]
  simp [hnil, hver]

/-- Scenario 3 as an instance of C5: version "1.0" with method ping and id 2 is
answered with -32600 and sent as
`{"jsonrpc":"2.0","error":{"code":-32600,"message":...},"id":2}`. -/
theorem handleSingle_invalid_version_witness :
    handleSingle (some oldVersionRequest) =
        ({ JSONRPC := "2.0", Result := GoValue.nil,
           Error := some { Code := -32600,
                           Message := "Invalid Request: jsonrpc must be '2.0'",
                           Data := GoValue.nil },
           ID := GoValue.float64 2 }, true)
      ∧ marshalResponse (handleSingle (some oldVersionRequest)).1 =
        JSON.obj [("jsonrpc", JSON.str "2.0"),
                  ("error", JSON.obj [("code", JSON.num (-32600)),
                    ("message", JSON.str "Invalid Request: jsonrpc must be '2.0'")]),
                  ("id", JSON.num 2)] :=
  ⟨handleSingle_invalid_version (some oldVersionRequest)
      { JSONRPC := "1.0", Method := "ping", Params := GoValue.nil, ID := GoValue.float64 2 }
      rfl (by simp) (by decide),
   rfl⟩

/-- C6: a raw member that decodes into a request with an id, version "2.0" and
a method that is neither "ping" nor "echo" (the empty string of a missing
field included) is answered with error -32601 "Method not found", no result
and the id of the request. -/
theorem handleSingle_method_not_found (raw : RawMessage) (req : rpcRequest)
    (hdec : unmarshalRequest raw = some req) (hid : req.ID ≠ GoValue.nil)
    (hver : req.JSONRPC = "2.0") (hping : req.Method ≠ "ping")
    (hecho : req.Method ≠ "echo") :
    handleSingle raw =
      ({ JSONRPC := "2.0", Result := GoValue.nil,
         Error := some { Code := -32601, Message := "Method not found",
                         Data := GoValue.nil },
         ID := req.ID }, true) := by
  have hnil : req.ID.isNil = false := (GoValue.isNil_false_iff _).2 hid
  rw [handleSingle_decoded raw req hdec]
  simp [hnil, hver, hping, hecho]

/-- An instance of C6 with the method "sum". -/
theorem handleSingle_method_not_found_witness :
    handleSingle (some unknownMethodRequest) =
      ({ JSONRPC := "2.0", Result := GoValue.nil,
         Error := some { Code := -32601, Message := "Method not found",
                         Data := GoValue.nil },
         ID := GoValue.float64 3 }, true) :=
  handleSingle_method_not_found (some unknownMethodRequest)
    { JSONRPC := "2.0", Method := "sum", Params := GoValue.nil, ID := GoValue.float64 3 }
    rfl (by simp) rfl (by decide) (by decide)

/-! ## Parse errors -/

/-- C7: a message that is not JSON makes the read loop write exactly one
response, the single object with error -32700 "Parse error", no result and
id null (whether or not that write succeeds); and whenever a raw member fails
to decode into `rpcRequest`, `handleSingle` returns ok = true with that
response. -/
theorem handleSingle_parse_error (raw : RawMessage)
    (hdec : unmarshalRequest raw = none) :
    handleSingle raw =
        ({ JSONRPC := "2.0", Result := GoValue.nil,
           Error := some { Code := -32700, Message := "Parse error", Data := GoValue.nil },
           ID := GoValue.nil }, true)
      ∧ dispatch none =
        some (Outbound.single
          { JSONRPC := "2.0", Result := GoValue.nil,
            Error := some { Code := -32700, Message := "Parse error", Data := GoValue.nil },
            ID := GoValue.nil })
      ∧ ∀ (ok : Bool) (rest : List Inbound),
          handleWS ({ message := none, writeOk := ok } :: rest) =
            if ok then Event.writeJSON (Outbound.single parseErrorResponse) true :: handleWS rest
            else [Event.writeJSON (Outbound.single parseErrorResponse) false,
                  Event.closeDone, Event.ret] := by
  refine ⟨handleSingle_undecoded raw hdec, ?_, ?_⟩
  · simp [dispatch, unmarshalBatch, handleSingle, unmarshalRequest, parseErrorResponse]
  · intro ok rest
    simp [handleWS, unmarshalBatch, handleSingle, unmarshalRequest]

/-- Scenario 5 as an instance of C7: the bytes `not valid json` are answered
with the parse error, sent as
`{"jsonrpc":"2.0","error":{"code":-32700,"message":"Parse error"},"id":null}`. -/
theorem handleSingle_parse_error_witness :
    (handleSingle none =
        ({ JSONRPC := "2.0", Result := GoValue.nil,
           Error := some { Code := -32700, Message := "Parse error", Data := GoValue.nil },
           ID := GoValue.nil }, true)
      ∧ dispatch none =
        some (Outbound.single
          { JSONRPC := "2.0", Result := GoValue.nil,
            Error := some { Code := -32700, Message := "Parse error", Data := GoValue.nil },
            ID := GoValue.nil })
      ∧ ∀ (ok : Bool) (rest : List Inbound),
          handleWS ({ message := none, writeOk := ok } :: rest) =
            if ok then Event.writeJSON (Outbound.single parseErrorResponse) true :: handleWS rest
            else [Event.writeJSON (Outbound.single parseErrorResponse) false,
                  Event.closeDone, Event.ret])
      ∧ (dispatch none).map Outbound.marshal =
        some (JSON.obj [("jsonrpc", JSON.str "2.0"),
                        ("error", JSON.obj [("code", JSON.num (-32700)),
                                            ("message", JSON.str "Parse error")]),
                        ("id", JSON.null)]) :=
  ⟨handleSingle_parse_error none rfl, rfl⟩

/-! ## Decode errors of objects, and the batch loop -/

theorem storeMember_failed (st : DecodeState) (kv : String × JSON)
    (h : st.failed = true) : (storeMember st kv).failed = true := by
  unfold storeMember
  simp only []
  split_ifs <;> simp [h]

theorem foldl_storeMember_failed (kvs : List (String × JSON)) (st : DecodeState)
    (h : st.failed = true) : (kvs.foldl storeMember st).failed = true := by
  induction kvs generalizing st with
  | nil => simpa using h
  | cons kv rest ih => exact ih _ (storeMember_failed st kv h)

theorem storeMember_badMember (st : DecodeState) (kv : String × JSON)
    (h : badMember kv = true) : (storeMember st kv).failed = true := by
  obtain ⟨k, v⟩ := kv
  simp only [badMember, Bool.and_eq_true, Bool.or_eq_true, decide_eq_true_eq] at h
  obtain ⟨hk, hv⟩ := h
  unfold storeMember
  simp only []
  rcases hk with hk | hk
  · rw [if_pos hk]
    cases v <;> simp_all [storeString]
  · have hne : foldName k ≠ "JSONRPC" := by rw [hk]; decide
    rw [if_neg hne, if_pos hk]
    cases v <;> simp_all [storeString]

theorem foldl_storeMember_any_bad (kvs : List (String × JSON)) (st : DecodeState)
    (h : kvs.any badMember = true) : (kvs.foldl storeMember st).failed = true := by
  induction kvs generalizing st with
  | nil => simp at h
  | cons kv rest ih =>
    rw [List.any_cons, Bool.or_eq_true] at h
    rcases h with h | h
    · exact foldl_storeMember_failed rest _ (storeMember_badMember st kv h)
    · exact ih _ h

/-- A value that is not of the request shape does not decode. -/
theorem unmarshalRequest_shapeMismatch (v : JSON) (h : shapeMismatch v = true) :
    unmarshalRequest (some v) = none := by
  cases v with
  | null => simp [shapeMismatch] at h
  | obj kvs =>
    have hf := foldl_storeMember_any_bad kvs
      { req := rpcRequest.zero, failed := false } (by simpa [shapeMismatch] using h)
    simp [unmarshalRequest, hf]
  | _ => rfl

theorem foldl_collect (l : List RawMessage) (acc : List rpcResponse) :
    l.foldl (fun res item => if (handleSingle item).2 then res ++ [(handleSingle item).1] else res)
        acc =
      acc ++ l.filterMap
        (fun item => if (handleSingle item).2 then some (handleSingle item).1 else none) := by
  induction l generalizing acc with
  | nil => simp
  | cons m rest ih =>
    rw [List.foldl_cons, ih, List.filterMap_cons]
    by_cases hm : (handleSingle m).2 = true <;> simp [hm]

/-- The loop over a batch keeps, in order, the responses of the members that are
answered. -/
theorem collectBatch_eq_filterMap (l : List RawMessage) :
    collectBatch l =
      l.filterMap
        (fun item => if (handleSingle item).2 then some (handleSingle item).1 else none) := by
  have h := foldl_collect l []
  simpa [collectBatch] using h

theorem collectBatch_append (l₁ l₂ : List RawMessage) :
    collectBatch (l₁ ++ l₂) = collectBatch l₁ ++ collectBatch l₂ := by
  simp [collectBatch_eq_filterMap, List.filterMap_append]

theorem collectBatch_cons_answered (m : RawMessage) (l : List RawMessage)
    (resp : rpcResponse) (h : handleSingle m = (resp, true)) :
    collectBatch (m :: l) = resp :: collectBatch l := by
  simp [collectBatch_eq_filterMap, List.filterMap_cons, h]

/-- C8 fails for `null`: as a batch member it decodes without error into the
zero request and is dropped like a notification, so the batch `[null]` and the
message `null` cause no write at all; and an object whose `jsonrpc` is `null`
is answered with -32600, not with -32700. -/
theorem null_is_not_a_parse_error :
    handleSingle (some JSON.null) = (rpcResponse.zero, false)
      ∧ dispatch (some (JSON.arr [JSON.null])) = none
      ∧ dispatch (some JSON.null) = none
      ∧ handleSingle (some nullVersionRequest) =
        ({ JSONRPC := "2.0", Result := GoValue.nil,
           Error := some { Code := -32600,
                           Message := "Invalid Request: jsonrpc must be '2.0'",
                           Data := GoValue.nil },
           ID := GoValue.float64 1 }, true) :=
  ⟨rfl, rfl, rfl, rfl⟩

/-- C8 as amended: a JSON value that is a number, a string, a boolean, an array
or an object with a `jsonrpc` or `method` member that is neither a string nor
`null` is answered with error -32700 "Parse error" and id null; as a member of
a batch its response stands in the batch response between the responses of the
members before and after it, and as a message of its own (when it is not an
array, which would be a batch) its response is written as a single object. -/
theorem shapeMismatch_parse_error (v : JSON) (h : shapeMismatch v = true) :
    handleSingle (some v) =
        ({ JSONRPC := "2.0", Result := GoValue.nil,
           Error := some { Code := -32700, Message := "Parse error", Data := GoValue.nil },
           ID := GoValue.nil }, true)
      ∧ (∀ pre post : List JSON,
          dispatch (some (JSON.arr (pre ++ v :: post))) =
            some (Outbound.batch
              (collectBatch (pre.map some) ++
                { JSONRPC := "2.0", Result := GoValue.nil,
                  Error := some { Code := -32700, Message := "Parse error",
                                  Data := GoValue.nil },
                  ID := GoValue.nil } :: collectBatch (post.map some))))
      ∧ ((∀ xs, v ≠ JSON.arr xs) →
          dispatch (some v) =
            some (Outbound.single
              { JSONRPC := "2.0", Result := GoValue.nil,
                Error := some { Code := -32700, Message := "Parse error",
                                Data := GoValue.nil },
                ID := GoValue.nil })) := by
  have hs : handleSingle (some v) = (parseErrorResponse, true) :=
    handleSingle_undecoded _ (unmarshalRequest_shapeMismatch v h)
  refine ⟨hs, ?_, ?_⟩
  · intro pre post
    have hc : collectBatch (List.map some pre ++ some v :: List.map some post) =
        collectBatch (pre.map some) ++ parseErrorResponse :: collectBatch (post.map some) := by
      rw [collectBatch_append, collectBatch_cons_answered _ _ _ hs]
    simp [dispatch, unmarshalBatch, hc, parseErrorResponse]
  · intro hnarr
    cases v with
    | null => simp [shapeMismatch] at h
    | arr xs => exact absurd rfl (hnarr xs)
    | _ => simp [dispatch, unmarshalBatch, hs, parseErrorResponse]

/-- A batch with a number between a ping request and a notification, as an
instance of C8 as amended: the text
`[{"jsonrpc":"2.0","method":"ping","id":1}, 5, {"method":"ping"}]`
is answered with the ping response followed by the parse error. -/
theorem shapeMismatch_parse_error_witness :
    shapeMismatch (JSON.num 5) = true
      ∧ dispatch (some (JSON.arr [pingRequest, JSON.num 5, pingNotification])) =
        some (Outbound.batch
          [{ JSONRPC := "2.0", Result := GoValue.map [("pong", GoValue.bool true)],
             Error := none, ID := GoValue.float64 1 },
           { JSONRPC := "2.0", Result := GoValue.nil,
             Error := some { Code := -32700, Message := "Parse error", Data := GoValue.nil },
             ID := GoValue.nil }]) :=
  ⟨rfl, (shapeMismatch_parse_error (JSON.num 5) rfl).2.1 [pingRequest] [pingNotification]⟩

/-! ## How the members of an object reach the fields `id` and `params` -/

theorem storeMember_ID_of_ne (st : DecodeState) (kv : String × JSON)
    (h : foldName kv.1 ≠ "ID") : (storeMember st kv).req.ID = st.req.ID := by
  unfold storeMember
  simp only []
  split_ifs <;> rfl

theorem foldl_storeMember_ID (kvs : List (String × JSON)) (st : DecodeState)
    (h : ∀ kv ∈ kvs, foldName kv.1 ≠ "ID") :
    (kvs.foldl storeMember st).req.ID = st.req.ID := by
  induction kvs generalizing st with
  | nil => rfl
  | cons kv rest ih =>
    rw [List.foldl_cons, ih _ (fun kv' hkv' => h kv' (List.mem_cons_of_mem _ hkv')),
      storeMember_ID_of_ne st kv (h kv (List.mem_cons_self _ _))]

theorem storeMember_Params_of_ne (st : DecodeState) (kv : String × JSON)
    (h : foldName kv.1 ≠ "PARAMS") : (storeMember st kv).req.Params = st.req.Params := by
  unfold storeMember
  simp only []
  split_ifs <;> rfl

theorem foldl_storeMember_Params (kvs : List (String × JSON)) (st : DecodeState)
    (h : ∀ kv ∈ kvs, foldName kv.1 ≠ "PARAMS") :
    (kvs.foldl storeMember st).req.Params = st.req.Params := by
  induction kvs generalizing st with
  | nil => rfl
  | cons kv rest ih =>
    rw [List.foldl_cons, ih _ (fun kv' hkv' => h kv' (List.mem_cons_of_mem _ hkv')),
      storeMember_Params_of_ne st kv (h kv (List.mem_cons_self _ _))]

theorem foldl_storeMember_not_failed (kvs : List (String × JSON)) (st : DecodeState)
    (h : (kvs.foldl storeMember st).failed = false) : st.failed = false := by
  cases hst : st.failed with
  | false => rfl
  | true => rw [foldl_storeMember_failed kvs st hst] at h; exact absurd h (by decide)

theorem storeMember_ID_null (st : DecodeState) (k : String) (hk : foldName k = "ID") :
    (storeMember st (k, JSON.null)).req.ID = GoValue.nil := by
  have h1 : foldName k ≠ "JSONRPC" := by rw [hk]; decide
  have h2 : foldName k ≠ "METHOD" := by rw [hk]; decide
  have h3 : foldName k ≠ "PARAMS" := by rw [hk]; decide
  simp [storeMember, h1, h2, h3, hk, storeInterface, decodeInterface]

theorem storeMember_Params_decoded (st : DecodeState) (k : String) (X : JSON)
    (hk : foldName k = "PARAMS") (hok : (storeMember st (k, X)).failed = false) :
    decodeInterface X = some (storeMember st (k, X)).req.Params := by
  have h1 : foldName k ≠ "JSONRPC" := by rw [hk]; decide
  have h2 : foldName k ≠ "METHOD" := by rw [hk]; decide
  cases hX : decodeInterface X with
  | none => simp [storeMember, h1, h2, hk, storeInterface, hX] at hok
  | some g => simp [storeMember, h1, h2, hk, storeInterface, hX]

/-- Decoding into an `interface{}` gives nil for `null` only. -/
theorem decodeInterface_nil_iff (X : JSON) :
    decodeInterface X = some GoValue.nil ↔ X = JSON.null := by
  cases X with
  | null => simp [decodeInterface]
  | arr xs => cases h : decodeArray xs <;> simp [decodeInterface, h]
  | obj kvs => cases h : decodeObject kvs <;> simp [decodeInterface, h]
  | _ => simp [decodeInterface]

/-- The state in which `json.Unmarshal` ends on an object that decodes. -/
theorem unmarshalRequest_obj (kvs : List (String × JSON)) (req : rpcRequest)
    (hdec : unmarshalRequest (some (JSON.obj kvs)) = some req) :
    (kvs.foldl storeMember { req := rpcRequest.zero, failed := false }).failed = false
      ∧ (kvs.foldl storeMember { req := rpcRequest.zero, failed := false }).req = req := by
  simp only [unmarshalRequest] at hdec
  split_ifs at hdec with hf
  simp only [Option.some.injEq] at hdec
  exact ⟨by simpa using hf, hdec⟩

/-- An object without a member for `id` decodes with a nil id. -/
theorem unmarshalRequest_ID_absent (kvs : List (String × JSON)) (req : rpcRequest)
    (hdec : unmarshalRequest (some (JSON.obj kvs)) = some req)
    (h : ∀ kv ∈ kvs, foldName kv.1 ≠ "ID") : req.ID = GoValue.nil := by
  rw [← (unmarshalRequest_obj kvs req hdec).2, foldl_storeMember_ID kvs _ h]
  rfl

/-- An object whose last member for `id` is `null` decodes with a nil id. -/
theorem unmarshalRequest_ID_null (pre post : List (String × JSON)) (k : String)
    (req : rpcRequest) (hk : foldName k = "ID")
    (hdec : unmarshalRequest (some (JSON.obj (pre ++ (k, JSON.null) :: post))) = some req)
    (h : ∀ kv ∈ post, foldName kv.1 ≠ "ID") : req.ID = GoValue.nil := by
  rw [← (unmarshalRequest_obj _ req hdec).2, List.foldl_append, List.foldl_cons,
    foldl_storeMember_ID post _ h, storeMember_ID_null _ k hk]

/-- An object without a member for `params` decodes with nil params. -/
theorem unmarshalRequest_Params_absent (kvs : List (String × JSON)) (req : rpcRequest)
    (hdec : unmarshalRequest (some (JSON.obj kvs)) = some req)
    (h : ∀ kv ∈ kvs, foldName kv.1 ≠ "PARAMS") : req.Params = GoValue.nil := by
  rw [← (unmarshalRequest_obj kvs req hdec).2, foldl_storeMember_Params kvs _ h]
  rfl

/-- An object that decodes has in `Params` the decoded value of its last member
for `params`. -/
theorem unmarshalRequest_Params_member (pre post : List (String × JSON)) (k : String)
    (X : JSON) (req : rpcRequest) (hk : foldName k = "PARAMS")
    (hdec : unmarshalRequest (some (JSON.obj (pre ++ (k, X) :: post))) = some req)
    (h : ∀ kv ∈ post, foldName kv.1 ≠ "PARAMS") : decodeInterface X = some req.Params := by
  obtain ⟨hf, hr⟩ := unmarshalRequest_obj _ req hdec
  rw [List.foldl_append, List.foldl_cons] at hf hr
  have hok := foldl_storeMember_not_failed post _ hf
  rw [← hr, foldl_storeMember_Params post _ h]
  exact storeMember_Params_decoded _ k X hk hok

/-! ## An id that is `null` -/

/-- C9 fails on the code: the request `{"jsonrpc":"2.0","method":"ping","id":null}`
decodes with a nil id, `handleSingle` returns ok = false with the zero
response, and the read loop writes nothing for it. -/
theorem null_id_not_answered :
    unmarshalRequest (some nullIdRequest) =
        some { JSONRPC := "2.0", Method := "ping", Params := GoValue.nil, ID := GoValue.nil }
      ∧ handleSingle (some nullIdRequest) = (rpcResponse.zero, false)
      ∧ dispatch (some nullIdRequest) = none :=
  ⟨rfl, rfl, rfl⟩

/-- C9 as amended: a request is treated as a notification (ok = false) exactly
when its decoded id is nil, and an answered request gets its own, non-nil id
back; the decoded id is nil both when the object has no member for `id` and
when its last member for `id` is an explicit `null`. -/
theorem notification_iff_id_nil (raw : RawMessage) (req : rpcRequest)
    (hdec : unmarshalRequest raw = some req) :
    ((handleSingle raw).2 = false ↔ req.ID = GoValue.nil)
      ∧ ((handleSingle raw).2 = true →
          (handleSingle raw).1.ID = req.ID ∧ (handleSingle raw).1.ID ≠ GoValue.nil)
      ∧ (∀ kvs, raw = some (JSON.obj kvs) → (∀ kv ∈ kvs, foldName kv.1 ≠ "ID") →
          req.ID = GoValue.nil)
      ∧ (∀ pre post k, raw = some (JSON.obj (pre ++ (k, JSON.null) :: post)) →
          foldName k = "ID" → (∀ kv ∈ post, foldName kv.1 ≠ "ID") →
          req.ID = GoValue.nil) := by
  have hs := handleSingle_decoded raw req hdec
  refine ⟨?_, ?_, ?_, ?_⟩
  · rw [hs, ← GoValue.isNil_iff]
    cases hnil : req.ID.isNil
    · simp only [Bool.false_eq_true, if_false, iff_false]
      split_ifs <;> simp
    · simp
  · rw [hs]
    cases hnil : req.ID.isNil
    · have hne := (GoValue.isNil_false_iff _).1 hnil
      simp only [Bool.false_eq_true, if_false]
      split_ifs <;> exact fun _ => ⟨rfl, hne⟩
    · simp
  · intro kvs hraw h
    subst hraw
    exact unmarshalRequest_ID_absent kvs req hdec h
  · intro pre post k hraw hk h
    subst hraw
    exact unmarshalRequest_ID_null pre post k req hk hdec h

/-- An instance of C9 as amended at the ping request with id `null`: it decodes
with a nil id and is a notification. -/
theorem notification_iff_id_nil_witness :
    (handleSingle (some nullIdRequest)).2 = false :=
  (notification_iff_id_nil (some nullIdRequest)
    { JSONRPC := "2.0", Method := "ping", Params := GoValue.nil, ID := GoValue.nil }
    rfl).1.2 rfl

/-! ## Result and error of a response -/

/-- C10 fails on the code: the echo request without params is answered
(ok = true) with a response in which neither result nor error is set; it is
sent as `{"jsonrpc":"2.0","id":1}`. -/
theorem echo_without_params_neither :
    handleSingle (some echoNoParamsRequest) =
        ({ JSONRPC := "2.0", Result := GoValue.nil, Error := none,
           ID := GoValue.float64 1 }, true)
      ∧ marshalResponse (handleSingle (some echoNoParamsRequest)).1 =
        JSON.obj [("jsonrpc", JSON.str "2.0"), ("id", JSON.num 1)] :=
  ⟨rfl, rfl⟩

/-- C10 as amended: a response that `handleSingle` produces never has both
result and error set, and it has neither set exactly when it answers an echo
request (id present, version "2.0") whose params are absent or `null`; every
other response has exactly one of the two. -/
theorem result_error_not_both (raw : RawMessage) (hok : (handleSingle raw).2 = true) :
    ¬ ((handleSingle raw).1.Result ≠ GoValue.nil ∧ (handleSingle raw).1.Error ≠ none)
      ∧ (((handleSingle raw).1.Result = GoValue.nil ∧ (handleSingle raw).1.Error = none) ↔
          ∃ req, unmarshalRequest raw = some req ∧ req.ID ≠ GoValue.nil
            ∧ req.JSONRPC = "2.0" ∧ req.Method = "echo" ∧ req.Params = GoValue.nil) := by
  cases hdec : unmarshalRequest raw with
  | none =>
    rw [handleSingle_undecoded raw hdec]
    simp [parseErrorResponse]
  | some req =>
    have hs := handleSingle_decoded raw req hdec
    rw [hs] at hok ⊢
    cases hnil : req.ID.isNil
    · have hne := (GoValue.isNil_false_iff _).1 hnil
      simp only [hnil, Bool.false_eq_true, if_false] at hok ⊢
      by_cases hver : req.JSONRPC = "2.0"
      · by_cases hping : req.Method = "ping"
        · simp [hver, hping]
        · by_cases hecho : req.Method = "echo"
          · simp [hver, hecho, hne]
          · simp [hver, hping, hecho]
      · simp [hver]
    · simp [hnil] at hok

/-- An instance of C10 as amended at the ping request of scenario 1: its
response has a result and no error. -/
theorem result_error_not_both_witness :
    (handleSingle (some pingRequest)).2 = true
      ∧ ¬ ((handleSingle (some pingRequest)).1.Result ≠ GoValue.nil
            ∧ (handleSingle (some pingRequest)).1.Error ≠ none) :=
  ⟨rfl, (result_error_not_both (some pingRequest) rfl).1⟩

/-! ## Echo -/

/-- C2 fails on the code for the JSON value `null`: the echo request with
params `null` is answered without a result member (sent as
`{"jsonrpc":"2.0","id":1}`), not with the result `null`. It also fails for a
params value that does not decode, which is answered with the parse error. -/
theorem echo_null_params_no_result :
    handleSingle (some echoNullRequest) =
        ({ JSONRPC := "2.0", Result := GoValue.nil, Error := none,
           ID := GoValue.float64 1 }, true)
      ∧ marshalResponse (handleSingle (some echoNullRequest)).1 =
        JSON.obj [("jsonrpc", JSON.str "2.0"), ("id", JSON.num 1)]
      ∧ (marshalResponse (handleSingle (some echoNullRequest)).1).member "result" = none
      ∧ handleSingle (some echoRangeRequest) = (parseErrorResponse, true) :=
  ⟨rfl, rfl, rfl, rfl⟩

/-- C2 as amended: a request that decodes with an id, version "2.0" and method
"echo" is answered (ok = true) with no error, its own id and its decoded
params as result. The decoded params are the decoded value of the last member
for `params`, and they are nil exactly when that member is `null`, as they are
when there is no such member. The response is sent with the member `result`
holding the encoded params when they are not nil, and without a member
`result` when they are nil; it never has a member `error`. -/
theorem handleSingle_echo (raw : RawMessage) (req : rpcRequest)
    (hdec : unmarshalRequest raw = some req) (hid : req.ID ≠ GoValue.nil)
    (hver : req.JSONRPC = "2.0") (hmethod : req.Method = "echo") :
    handleSingle raw =
        ({ JSONRPC := "2.0", Result := req.Params, Error := none, ID := req.ID }, true)
      ∧ (req.Params ≠ GoValue.nil →
          (marshalResponse (handleSingle raw).1).member "result" =
            some (marshalValue req.Params))
      ∧ (req.Params = GoValue.nil →
          (marshalResponse (handleSingle raw).1).member "result" = none)
      ∧ (marshalResponse (handleSingle raw).1).member "error" = none
      ∧ (∀ pre post k X, raw = some (JSON.obj (pre ++ (k, X) :: post)) →
          foldName k = "PARAMS" → (∀ kv ∈ post, foldName kv.1 ≠ "PARAMS") →
          decodeInterface X = some req.Params ∧ (req.Params = GoValue.nil ↔ X = JSON.null))
      ∧ (∀ kvs, raw = some (JSON.obj kvs) → (∀ kv ∈ kvs, foldName kv.1 ≠ "PARAMS") →
          req.Params = GoValue.nil) := by
  have hnil : req.ID.isNil = false := (GoValue.isNil_false_iff _).2 hid
  have hs : handleSingle raw =
      ({ JSONRPC := "2.0", Result := req.Params, Error := none, ID := req.ID }, true) := by
    rw [handleSingle_decoded raw req hdec]
    simp [hnil, hver, hmethod]
  refine ⟨hs, ?_, ?_, ?_, ?_, ?_⟩
  · intro hp
    have hpn : req.Params.isNil = false := (GoValue.isNil_false_iff _).2 hp
    simp [hs, marshalResponse, JSON.member, hpn]
  · intro hp
    simp [hs, marshalResponse, JSON.member, hp, GoValue.isNil]
  · cases hpn : req.Params.isNil <;> simp [hs, marshalResponse, JSON.member, hpn]
  · intro pre post k X hraw hk h
    subst hraw
    have hX := unmarshalRequest_Params_member pre post k X req hk hdec h
    refine ⟨hX, ?_⟩
    rw [← decodeInterface_nil_iff X, hX]
    constructor
    · intro hp; rw [hp]
    · intro hp; exact Option.some.inj hp
  · intro kvs hraw h
    subst hraw
    exact unmarshalRequest_Params_absent kvs req hdec h

/-- Scenario 2 as an instance of C2 as amended: the echo request with params
`{"a":1}` and id "x" is answered with its params and sent as
`{"jsonrpc":"2.0","result":{"a":1},"id":"x"}`. -/
theorem handleSingle_echo_witness :
    handleSingle (some echoRequest) =
        ({ JSONRPC := "2.0", Result := GoValue.map [("a", GoValue.float64 1)],
           Error := none, ID := GoValue.string "x" }, true)
      ∧ marshalResponse (handleSingle (some echoRequest)).1 =
        JSON.obj [("jsonrpc", JSON.str "2.0"), ("result", JSON.obj [("a", JSON.num 1)]),
                  ("id", JSON.str "x")] :=
  ⟨(handleSingle_echo (some echoRequest)
      { JSONRPC := "2.0", Method := "echo",
        Params := GoValue.map [("a", GoValue.float64 1)], ID := GoValue.string "x" }
      rfl (by simp) rfl rfl).1,
   rfl⟩

/-! ## Batches -/

theorem collectBatch_cons (m : RawMessage) (l : List RawMessage) :
    collectBatch (m :: l) =
      (if (handleSingle m).2 then [(handleSingle m).1] else []) ++ collectBatch l := by
  rw [collectBatch_eq_filterMap, collectBatch_eq_filterMap, List.filterMap_cons]
  by_cases hm : (handleSingle m).2 = true <;> simp [hm]

theorem collectBatch_length (l : List RawMessage) :
    (collectBatch l).length = l.countP (fun m => (handleSingle m).2) := by
  induction l with
  | nil => rfl
  | cons m rest ih =>
    rw [collectBatch_cons, List.length_append, ih, List.countP_cons]
    by_cases hm : (handleSingle m).2 = true
    · simp [hm]
      omega
    · simp [hm]

/-- What one iteration of the read loop does with a message that is an array. -/
theorem dispatch_arr (ms : List JSON) :
    dispatch (some (JSON.arr ms)) =
      match collectBatch (ms.map some) with
      | [] => none
      | r :: rs => some (Outbound.batch (r :: rs)) := by
  cases h : collectBatch (ms.map some) <;> simp [dispatch, unmarshalBatch, h]

/-- C11: for a message that is a JSON array the collected responses are the
order-preserving filter-map of `handleSingle` over its members (a member with
ok = false gives nothing); the read loop makes one `WriteJSON` call with the
whole sequence when it is not empty and none when it is empty. Scenario 6, a
ping request followed by an echo notification, is answered with the
one-element array of the ping response. -/
theorem batch_responses (ms : List JSON) :
    collectBatch (ms.map some) =
        ms.filterMap
          (fun m => if (handleSingle (some m)).2 then some (handleSingle (some m)).1 else none)
      ∧ dispatch (some (JSON.arr ms)) =
        (match collectBatch (ms.map some) with
          | [] => none
          | r :: rs => some (Outbound.batch (r :: rs)))
      ∧ (∀ (ok : Bool) (rest : List Inbound),
          handleWS ({ message := some (JSON.arr ms), writeOk := ok } :: rest) =
            match collectBatch (ms.map some) with
            | [] => handleWS rest
            | r :: rs =>
              if ok then Event.writeJSON (Outbound.batch (r :: rs)) true :: handleWS rest
              else [Event.writeJSON (Outbound.batch (r :: rs)) false, Event.ret])
      ∧ (dispatch (some (JSON.arr [pingRequest, echoNotification]))).map Outbound.marshal =
        some (JSON.arr [JSON.obj [("jsonrpc", JSON.str "2.0"),
                                  ("result", JSON.obj [("pong", JSON.bool true)]),
                                  ("id", JSON.num 1)]]) := by
  refine ⟨?_, dispatch_arr ms, ?_, rfl⟩
  · rw [collectBatch_eq_filterMap, List.filterMap_map]
    rfl
  · intro ok rest
    cases h : collectBatch (ms.map some) <;> simp [handleWS, unmarshalBatch, h]

/-! ## Which members are answered -/

/-- A member is answered unless it decodes into a request without id. -/
theorem handleSingle_ok (raw : RawMessage) :
    (handleSingle raw).2 = !decodesWithoutId raw := by
  cases hdec : unmarshalRequest raw with
  | none => simp [handleSingle_undecoded raw hdec, decodesWithoutId, hdec]
  | some req =>
    rw [handleSingle_decoded raw req hdec]
    cases hnil : req.ID.isNil
    · simp only [decodesWithoutId, hdec, hnil, Bool.false_eq_true, if_false]
      split_ifs <;> rfl
    · simp [decodesWithoutId, hdec, hnil]

/-- A member that is answered either fails to decode or decodes with an id,
and not both. -/
theorem handleSingle_ok_kinds (raw : RawMessage) :
    (if (handleSingle raw).2 then 1 else 0) =
      (if decodesWithId raw then 1 else 0) + (if failsToDecode raw then 1 else 0) := by
  rw [handleSingle_ok]
  cases hdec : unmarshalRequest raw with
  | none => simp [decodesWithoutId, decodesWithId, failsToDecode, hdec]
  | some req =>
    cases hnil : req.ID.isNil <;>
      simp [decodesWithoutId, decodesWithId, failsToDecode, hdec, hnil]

theorem batch_count_split (l : List RawMessage) :
    l.countP (fun m => (handleSingle m).2) =
      l.countP decodesWithId + l.countP failsToDecode := by
  induction l with
  | nil => rfl
  | cons m rest ih =>
    rw [List.countP_cons, List.countP_cons, List.countP_cons, ih]
    have h := handleSingle_ok_kinds m
    simp only [] at h ⊢
    omega

/-- C12 fails on the code: the batch `[5]` has no member with an id and yet one
response is collected for it, the parse error of its member. -/
theorem parse_error_counted_without_id :
    (collectBatch [some (JSON.num 5)]).length = 1
      ∧ [some (JSON.num 5)].countP decodesWithId = 0
      ∧ collectBatch [some (JSON.num 5)] = [parseErrorResponse] :=
  ⟨rfl, rfl, rfl⟩

/-- C12 as amended: for every batch the number of responses collected is the
number of members that decode with a present id plus the number of members
that fail to decode, each of which is answered with the parse error. -/
theorem batch_response_count (l : List RawMessage) :
    (collectBatch l).length = l.countP decodesWithId + l.countP failsToDecode := by
  rw [collectBatch_length, batch_count_split]

/-- C17: `handleSingle` returns ok = false exactly when the raw input decodes
into a request whose id is nil, and then the response is the zero value; so
for every batch the number of responses collected is the number of members
less the number of members that decode with a nil id, it is at most the number
of members, and every member that fails to decode is counted in it. -/
theorem not_ok_iff_decoded_without_id :
    (∀ raw : RawMessage,
        ((handleSingle raw).2 = false ↔
          ∃ req, unmarshalRequest raw = some req ∧ req.ID = GoValue.nil)
        ∧ ((handleSingle raw).2 = false → (handleSingle raw).1 = rpcResponse.zero))
      ∧ ∀ l : List RawMessage,
          (collectBatch l).length = l.length - l.countP decodesWithoutId
          ∧ (collectBatch l).length ≤ l.length
          ∧ l.countP failsToDecode ≤ (collectBatch l).length := by
  constructor
  · intro raw
    cases hdec : unmarshalRequest raw with
    | none => simp [handleSingle_undecoded raw hdec]
    | some req =>
      rw [handleSingle_decoded raw req hdec]
      cases hnil : req.ID.isNil
      · have hne := (GoValue.isNil_false_iff _).1 hnil
        simp only [Bool.false_eq_true, if_false]
        split_ifs <;> simp [hne]
      · have he := (GoValue.isNil_iff _).1 hnil
        simp [he]
  · intro l
    have hsum : (collectBatch l).length + l.countP decodesWithoutId = l.length := by
      rw [collectBatch_length]
      induction l with
      | nil => rfl
      | cons m rest ih =>
        rw [List.countP_cons, List.countP_cons, List.length_cons, ← ih, handleSingle_ok]
        cases decodesWithoutId m <;> simp <;> omega
    have hcount := batch_count_split l
    rw [← collectBatch_length] at hcount
    omega

/-! ## The encoding of a response -/

/-- Only the nil interface is encoded as `null`. -/
theorem marshalValue_null_iff (g : GoValue) :
    marshalValue g = JSON.null ↔ g = GoValue.nil := by
  cases g <;> simp [marshalValue]

theorem member_result (r : rpcResponse) :
    (marshalResponse r).member "result" =
      if r.Result.isNil then none else some (marshalValue r.Result) := by
  cases hres : r.Result.isNil <;> cases herr : r.Error <;>
    simp [marshalResponse, JSON.member, hres, herr]

theorem member_error (r : rpcResponse) :
    (marshalResponse r).member "error" = r.Error.map marshalError := by
  cases hres : r.Result.isNil <;> cases herr : r.Error <;>
    simp [marshalResponse, JSON.member, hres, herr]

theorem member_data (e : rpcError) :
    (marshalError e).member "data" =
      if e.Data.isNil then none else some (marshalValue e.Data) := by
  cases hdata : e.Data.isNil <;> simp [marshalError, JSON.member, hdata]

/-- C13: the encoding of a response always has the members `jsonrpc` and `id`,
the latter `null` when the id is nil; it has `result` exactly when the result
is not nil and `error` exactly when the error pointer is not nil; the error
object has `data` exactly when the data is not nil; and none of `result`,
`error` and `data` is ever written as `null`. The parse error is encoded as
`{"jsonrpc":"2.0","error":{"code":-32700,"message":"Parse error"},"id":null}`. -/
theorem marshalResponse_members (r : rpcResponse) :
    (marshalResponse r).member "jsonrpc" = some (JSON.str r.JSONRPC)
      ∧ (marshalResponse r).member "id" = some (marshalValue r.ID)
      ∧ (marshalValue r.ID = JSON.null ↔ r.ID = GoValue.nil)
      ∧ (marshalResponse r).member "result" =
          (if r.Result.isNil then none else some (marshalValue r.Result))
      ∧ (marshalResponse r).member "error" = r.Error.map marshalError
      ∧ (∀ e : rpcError, (marshalError e).member "data" =
          if e.Data.isNil then none else some (marshalValue e.Data))
      ∧ (marshalResponse r).member "result" ≠ some JSON.null
      ∧ (marshalResponse r).member "error" ≠ some JSON.null
      ∧ (∀ e : rpcError, (marshalError e).member "data" ≠ some JSON.null)
      ∧ marshalResponse
          { JSONRPC := "2.0", Result := GoValue.nil,
            Error := some { Code := -32700, Message := "Parse error", Data := GoValue.nil },
            ID := GoValue.nil } =
        JSON.obj [("jsonrpc", JSON.str "2.0"),
                  ("error", JSON.obj [("code", JSON.num (-32700)),
                                      ("message", JSON.str "Parse error")]),
                  ("id", JSON.null)] := by
  refine ⟨?_, ?_, marshalValue_null_iff r.ID, member_result r, member_error r, member_data,
    ?_, ?_, ?_, rfl⟩
  · simp [marshalResponse, JSON.member]
  · cases hres : r.Result.isNil <;> cases herr : r.Error <;>
      simp [marshalResponse, JSON.member, hres, herr]
  · rw [member_result]
    cases hres : r.Result.isNil
    · have hne := (GoValue.isNil_false_iff _).1 hres
      simpa using fun h => hne ((marshalValue_null_iff _).1 h)
    · simp
  · rw [member_error]
    cases r.Error <;> simp [marshalError]
  · intro e
    rw [member_data]
    cases hdata : e.Data.isNil
    · have hne := (GoValue.isNil_false_iff _).1 hdata
      simpa using fun h => hne ((marshalValue_null_iff _).1 h)
    · simp

/-! ## Fixed envelope of the responses -/

/-- C16: every response that `handleSingle` produces (ok = true) has version
"2.0", and when its error is set the error is one of the three fixed ones,
-32700 "Parse error", -32600 "Invalid Request: jsonrpc must be '2.0'" or
-32601 "Method not found", each without data. -/
theorem response_envelope (raw : RawMessage) (hok : (handleSingle raw).2 = true) :
    (handleSingle raw).1.JSONRPC = "2.0"
      ∧ ∀ e, (handleSingle raw).1.Error = some e →
          e = { Code := -32700, Message := "Parse error", Data := GoValue.nil }
          ∨ e = { Code := -32600, Message := "Invalid Request: jsonrpc must be '2.0'",
                  Data := GoValue.nil }
          ∨ e = { Code := -32601, Message := "Method not found", Data := GoValue.nil } := by
  cases hdec : unmarshalRequest raw with
  | none =>
    rw [handleSingle_undecoded raw hdec]
    refine ⟨rfl, ?_⟩
    intro e he
    exact Or.inl (Option.some.inj he).symm
  | some req =>
    rw [handleSingle_decoded raw req hdec] at hok ⊢
    cases hnil : req.ID.isNil
    · simp only [Bool.false_eq_true, if_false]
      split_ifs
      · exact ⟨rfl, fun e he => Or.inr (Or.inl (Option.some.inj he).symm)⟩
      · exact ⟨rfl, fun e he => by simp at he⟩
      · exact ⟨rfl, fun e he => by simp at he⟩
      · exact ⟨rfl, fun e he => Or.inr (Or.inr (Option.some.inj he).symm)⟩
    · simp [hnil] at hok

/-- An instance of C16 at the request of scenario 3, which is answered with
-32600. -/
theorem response_envelope_witness :
    (handleSingle (some oldVersionRequest)).2 = true
      ∧ (handleSingle (some oldVersionRequest)).1.JSONRPC = "2.0" :=
  ⟨rfl, (response_envelope (some oldVersionRequest) rfl).1⟩

/-! ## Messages that the batch decode accepts -/

/-- A message that the batch decode accepts is handled on the batch path. -/
theorem dispatch_batch (message : RawMessage) (rawBatch : List RawMessage)
    (h : unmarshalBatch message = some rawBatch) :
    dispatch message =
      match collectBatch rawBatch with
      | [] => none
      | r :: rs => some (Outbound.batch (r :: rs)) := by
  cases hc : collectBatch rawBatch <;> simp [dispatch, h, hc]

/-- C18: the messages `[]` and `null` are accepted by the batch decode with no
members, so the read loop writes nothing for them, neither an Invalid Request
nor a parse error, and goes on to the next read; and no message that the batch
decode accepts reaches the single-object path: what is written for it, if
anything, is the array of its collected responses. -/
theorem empty_batch_no_write :
    unmarshalBatch (some (JSON.arr [])) = some []
      ∧ unmarshalBatch (some JSON.null) = some []
      ∧ dispatch (some (JSON.arr [])) = none
      ∧ dispatch (some JSON.null) = none
      ∧ (∀ (ok : Bool) (rest : List Inbound),
          handleWS ({ message := some (JSON.arr []), writeOk := ok } :: rest) = handleWS rest
          ∧ handleWS ({ message := some JSON.null, writeOk := ok } :: rest) = handleWS rest)
      ∧ (∀ (message : RawMessage) (rawBatch : List RawMessage),
          unmarshalBatch message = some rawBatch →
            dispatch message =
                (match collectBatch rawBatch with
                  | [] => none
                  | r :: rs => some (Outbound.batch (r :: rs)))
              ∧ ∀ resp, dispatch message ≠ some (Outbound.single resp)) := by
  refine ⟨rfl, rfl, rfl, rfl, fun ok rest => ⟨rfl, rfl⟩, ?_⟩
  intro message rawBatch h
  refine ⟨dispatch_batch message rawBatch h, ?_⟩
  intro resp
  rw [dispatch_batch message rawBatch h]
  cases collectBatch rawBatch <;> simp

/-! ## The stop signal of the heartbeat -/

/-- C14 fails on the code where the write of a batch response fails: the read
loop returns without `close(done)`, while after a failed read and after a
failed write of a single response it closes `done` before it returns. -/
theorem batch_write_failure_without_close :
    handleWS [{ message := some (JSON.arr [pingRequest]), writeOk := false }] =
        [Event.writeJSON
            (Outbound.batch
              [{ JSONRPC := "2.0", Result := GoValue.map [("pong", GoValue.bool true)],
                 Error := none, ID := GoValue.float64 1 }]) false,
         Event.ret]
      ∧ handleWS [{ message := some pingRequest, writeOk := false }] =
        [Event.writeJSON
            (Outbound.single
              { JSONRPC := "2.0", Result := GoValue.map [("pong", GoValue.bool true)],
                Error := none, ID := GoValue.float64 1 }) false,
         Event.closeDone, Event.ret]
      ∧ handleWS [] = [Event.closeDone, Event.ret] :=
  ⟨rfl, rfl, rfl⟩

/-- Every run of the read loop is a sequence of events other than `close(done)`
followed by the return, with or without one `close(done)` right before it. -/
theorem handleWS_shape (inputs : List Inbound) :
    ∃ ws : List Event, (∀ e ∈ ws, e.isCloseDone = false)
      ∧ (handleWS inputs = ws ++ [Event.closeDone, Event.ret]
          ∨ handleWS inputs = ws ++ [Event.ret]) := by
  induction inputs with
  | nil => exact ⟨[], by simp, Or.inl rfl⟩
  | cons i rest ih =>
    obtain ⟨ws, hws, hrest⟩ := ih
    unfold handleWS
    cases hb : unmarshalBatch i.message with
    | some rawBatch =>
      simp only []
      by_cases hlen : (collectBatch rawBatch).length > 0
      · rw [if_pos hlen]
        cases hw : i.writeOk
        · refine ⟨[Event.writeJSON (Outbound.batch (collectBatch rawBatch)) false], ?_,
            Or.inr (by simp)⟩
          simp [Event.isCloseDone]
        · refine ⟨Event.writeJSON (Outbound.batch (collectBatch rawBatch)) true :: ws, ?_, ?_⟩
          · intro e he
            rcases List.mem_cons.1 he with h | h
            · rw [h]; rfl
            · exact hws e h
          · rcases hrest with h | h <;> simp [h]
      · rw [if_neg hlen]
        exact ⟨ws, hws, hrest⟩
    | none =>
      simp only []
      cases hok : (handleSingle i.message).2
      · simp only [Bool.false_eq_true, if_false]
        exact ⟨ws, hws, hrest⟩
      · simp only [if_true]
        cases hw : i.writeOk
        · refine ⟨[Event.writeJSON (Outbound.single (handleSingle i.message).1) false], ?_,
            Or.inl (by simp)⟩
          simp [Event.isCloseDone]
        · refine ⟨Event.writeJSON (Outbound.single (handleSingle i.message).1) true :: ws,
            ?_, ?_⟩
          · intro e he
            rcases List.mem_cons.1 he with h | h
            · rw [h]; rfl
            · exact hws e h
          · rcases hrest with h | h <;> simp [h]

/-- C19: in every run of the read loop `close(done)` happens at most once, and
where it happens the return follows it at once and ends the run, so that no
second `close(done)` can be reached. -/
theorem close_done_at_most_once (inputs : List Inbound) :
    (handleWS inputs).countP Event.isCloseDone ≤ 1
      ∧ ∃ ws : List Event, (∀ e ∈ ws, e.isCloseDone = false)
          ∧ (handleWS inputs = ws ++ [Event.closeDone, Event.ret]
              ∨ handleWS inputs = ws ++ [Event.ret]) := by
  obtain ⟨ws, hws, h⟩ := handleWS_shape inputs
  refine ⟨?_, ws, hws, h⟩
  have hzero : ws.countP Event.isCloseDone = 0 := by
    rw [List.countP_eq_zero]
    intro e he
    simp [hws e he]
  rcases h with h | h <;> simp [h, List.countP_append, hzero, List.countP_cons, Event.isCloseDone]

end JsonRpcServer
